import Mathlib

/-!
Shallow embedding of the nnunet_pieces repository (src/augmentation.py and
src/loss.py) and proofs about its claims.

Subjects are ordered key/entity maps; each entity is a scalar image, a label
map, or some other entry.  Voxel intensities are modelled as rationals and a
volume is a nested list (axis 0 / axis 1 / axis 2).  External torchio/monai
primitives (affine resampling, noise, blur, resampling, the base Dice+CE
loss, the real-valued power function) are out of scope per the spec and enter
as explicit function parameters; everything the repository itself computes is
translated directly from the source.
-/

namespace NNUNet

/-- Torch dtypes that matter for the dtype-preservation claims. -/
inductive Dtype where
  | float32
  | float64
  | int16
  | int64
  | uint8
  deriving DecidableEq, Inhabited

/-- Kind of an entry in a torchio Subject: tio.ScalarImage, tio.LabelMap, or
any other (non-image) entry. -/
inductive EntityKind where
  | scalar
  | label
  | other
  deriving DecidableEq, Inhabited

/-- A 3-dimensional volume of rational intensities, indexed axis 0, axis 1,
axis 2. -/
abbrev Grid := List (List (List ℚ))

/-- A torchio image entity: its kind, the dtype of its data tensor, and the
voxel data. -/
structure Image where
  kind : EntityKind
  dtype : Dtype
  data : Grid
  deriving DecidableEq, Inhabited

/-- A torchio Subject: an ordered mapping from string keys to entities
(Python dict iteration order). -/
abbrev Subject := List (String × Image)

/-- Default entry used with List.getD when indexing subjects. -/
def blankEntry : String × Image := ("", default)

/-- Flatten a volume to the list of its voxel values. -/
def gridFlatten (g : Grid) : List ℚ :=
  (g.map (fun plane => plane.flatten)).flatten

/-- Apply a function to every voxel of a volume (elementwise tensor op). -/
def gridMap (f : ℚ → ℚ) (g : Grid) : Grid :=
  g.map (fun plane => plane.map (fun row => row.map f))

/-- torch.Tensor.min over all voxels (0 on the empty tensor, where torch
would raise; never reached by the claims). -/
def tensorMin (g : Grid) : ℚ :=
  match gridFlatten g with
  | [] => 0
  | x :: xs => xs.foldl min x

/-- torch.Tensor.max over all voxels (0 on the empty tensor). -/
def tensorMax (g : Grid) : ℚ :=
  match gridFlatten g with
  | [] => 0
  | x :: xs => xs.foldl max x

/-- torch.clamp(v, lo, hi). -/
def clampQ (lo hi v : ℚ) : ℚ :=
  min (max v lo) hi

/-- Loop body of Brightness.apply_transform: multiply a ScalarImage's data
by the factor x, leave any other entry untouched. -/
def Brightness.entry (x : ℚ) (kv : String × Image) : String × Image :=
  if kv.2.kind = EntityKind.scalar then
    (kv.1, { kv.2 with data := gridMap (fun v => v * x) kv.2.data })
  else kv

/-- Brightness.apply_transform (src/augmentation.py lines 93-101): apply the
loop body to every entry of the subject. -/
def Brightness.apply (x : ℚ) (s : Subject) : Subject :=
  s.map (Brightness.entry x)

/-- Contrast.get_min_max (src/augmentation.py lines 123-132): min and max
start at (0, 0) and are overwritten by each ScalarImage in iteration order,
so the returned pair is the range of the last scalar image (or (0, 0) when
none exists). -/
def Contrast.get_min_max (s : Subject) : ℚ × ℚ :=
  s.foldl
    (fun mm kv =>
      if kv.2.kind = EntityKind.scalar then (tensorMin kv.2.data, tensorMax kv.2.data)
      else mm)
    (0, 0)

/-- Loop body of Contrast.apply_transform: scale a ScalarImage's data by x
and clamp it into the [min, max] pair mm computed before the loop. -/
def Contrast.entry (x : ℚ) (mm : ℚ × ℚ) (kv : String × Image) : String × Image :=
  if kv.2.kind = EntityKind.scalar then
    (kv.1, { kv.2 with data := gridMap (fun v => clampQ mm.1 mm.2 (v * x)) kv.2.data })
  else kv

/-- Contrast.apply_transform (src/augmentation.py lines 109-121): one
(min, max) pair is computed by get_min_max before the loop and used for
every ScalarImage of the subject. -/
def Contrast.apply (x : ℚ) (s : Subject) : Subject :=
  s.map (Contrast.entry x (Contrast.get_min_max s))

/-- Gamma.get_min_max (src/augmentation.py lines 193-202): identical loop to
Contrast.get_min_max. -/
def Gamma.get_min_max (s : Subject) : ℚ × ℚ :=
  s.foldl
    (fun mm kv =>
      if kv.2.kind = EntityKind.scalar then (tensorMin kv.2.data, tensorMax kv.2.data)
      else mm)
    (0, 0)

/-- Loop body of Gamma.apply_transform: a ScalarImage's data is normalised
by (max - min) of the pair mm computed before the loop, raised to the
sampled exponent (the external real power ** gamma is the parameter pw),
with a per-image 15% chance (draw invertDraw key) of the
invert-gamma-invert variant, then rescaled.  Division by zero in ℚ yields 0;
the degenerate denominator is tracked separately by gammaDenominator. -/
def Gamma.entry (pw : ℚ → ℚ) (invertDraw : String → ℚ) (mm : ℚ × ℚ)
    (kv : String × Image) : String × Image :=
  if kv.2.kind = EntityKind.scalar then
    let voxel : ℚ → ℚ := fun v =>
      let nrm := (v - mm.1) / (mm.2 - mm.1)
      let aug := if invertDraw kv.1 < 3 / 20 then 1 - pw (1 - nrm) else pw nrm
      aug * (mm.2 - mm.1) + mm.1
    (kv.1, { kv.2 with data := gridMap voxel kv.2.data })
  else kv

/-- Gamma.apply_transform (src/augmentation.py lines 175-191): one (min, max)
pair from get_min_max, then the loop body on every entry. -/
def Gamma.apply (pw : ℚ → ℚ) (invertDraw : String → ℚ) (s : Subject) : Subject :=
  s.map (Gamma.entry pw invertDraw (Gamma.get_min_max s))

/-- The denominator (max - min) of Gamma's normalisation step. -/
def gammaDenominator (s : Subject) : ℚ :=
  (Gamma.get_min_max s).2 - (Gamma.get_min_max s).1

/-- The subject has at least one ScalarImage, so the loop body of
Gamma.apply_transform (containing the division) executes. -/
def hasScalarImage (s : Subject) : Prop :=
  ∃ kv ∈ s, (Prod.snd kv).kind = EntityKind.scalar

instance (s : Subject) : Decidable (hasScalarImage s) := by
  unfold hasScalarImage; infer_instance

/-- get_weights' accumulation loop (src/loss.py lines 8-12): starting from
w = 1, append w and halve it, n times. -/
def unnormalisedWeightsAux : ℕ → ℚ → List ℚ
  | 0, _ => []
  | n + 1, w => w :: unnormalisedWeightsAux n (w / 2)

/-- get_weights (src/loss.py lines 7-13): build the unnormalised halving
weights and divide elementwise by their sum. -/
def get_weights (n : ℕ) : List ℚ :=
  let uw := unnormalisedWeightsAux n 1
  uw.map (fun x => x / uw.sum)

/-- DeepSuprDiceCELoss.__call__ (src/loss.py lines 57-71): the prediction is
already unbound along the supervision axis into `levels`; weights come from
get_weights on the level count, and the loss accumulates w * baseLoss level
target starting from 0, in zip order. -/
def deepSuprLoss {α β : Type} (baseLoss : α → β → ℚ) (levels : List α) (target : β) : ℚ :=
  let weights := get_weights levels.length
  (weights.zip levels).foldl (fun acc p => acc + p.1 * baseLoss p.2 target) 0

/-- tio.transforms.Transform probability gating: a transform constructed
with probability p runs its apply_transform only when the activation draw
falls below p, otherwise the subject is returned unchanged. -/
def gatedApply (p draw : ℚ) (t : Subject → Subject) (s : Subject) : Subject :=
  if draw < p then t s else s

/-- tio.transforms.RandomFlip(axes=a, flip_probability=1): reverse every
image (scalar and label) along spatial axis a; non-image entries untouched. -/
def flipAxis (a : Fin 3) (g : Grid) : Grid :=
  if a = 0 then g.reverse
  else if a = 1 then g.map List.reverse
  else g.map (fun plane => plane.map List.reverse)

/-- Apply the axis-a flip to every scalar image and label map of a subject
(RandomFlip acts on both image kinds). -/
def subjectFlip (a : Fin 3) (s : Subject) : Subject :=
  s.map fun kv =>
    if kv.2.kind = EntityKind.scalar ∨ kv.2.kind = EntityKind.label then
      (kv.1, { kv.2 with data := flipAxis a kv.2.data })
    else kv

/-- Body of Mirroring.apply_transform (src/augmentation.py lines 210-216):
the list comprehension keeps axis i when its draw falls below 0.5, and
tio.Compose applies the kept flips in axis order. -/
def mirroringBody (draws : Fin 3 → ℚ) (s : Subject) : Subject :=
  ((List.finRange 3).filter (fun i => decide (draws i < 1 / 2))).foldl
    (fun subj i => subjectFlip i subj) s

/-- Mirroring (src/augmentation.py lines 205-216): the class is constructed
with activation probability p (default 0.5 from its own init), so the body
runs only when the gate draw falls below p. -/
def Mirroring.apply (p gate : ℚ) (draws : Fin 3 → ℚ) (s : Subject) : Subject :=
  gatedApply p gate (mirroringBody draws) s

/-- The dict data_types built by Rotation/Scaling.apply_transform: key to
dtype for every ScalarImage or LabelMap entry. -/
def captureDtypes (s : Subject) : List (String × Dtype) :=
  s.filterMap fun kv =>
    if kv.2.kind = EntityKind.scalar ∨ kv.2.kind = EntityKind.label then
      some (kv.1, kv.2.dtype)
    else none

/-- tio.transforms.RandomAffine (external): resamples every scalar image and
label map, upcasting its data to torch.float32 (per the source docstring);
the geometric action on voxels is the abstract parameter affine. -/
def randomAffine (affine : String → Grid → Grid) (s : Subject) : Subject :=
  s.map fun kv =>
    if kv.2.kind = EntityKind.scalar ∨ kv.2.kind = EntityKind.label then
      (kv.1, { kind := kv.2.kind, dtype := Dtype.float32, data := affine kv.1 kv.2.data })
    else kv

/-- The restore loop of Rotation/Scaling.apply_transform: every scalar/label
entry gets value.data.to(data_types[key]); the external torch cast is the
abstract parameter cast.  The dict lookup cannot miss because RandomAffine
preserves keys; a miss (Python KeyError) is modelled as leaving the entry. -/
def restoreDtypes (cast : Dtype → Grid → Grid) (dtypes : List (String × Dtype))
    (s : Subject) : Subject :=
  s.map fun kv =>
    if kv.2.kind = EntityKind.scalar ∨ kv.2.kind = EntityKind.label then
      match List.lookup kv.1 dtypes with
      | some dt => (kv.1, { kv.2 with dtype := dt, data := cast dt kv.2.data })
      | none => kv
    else kv

/-- Rotation.apply_transform (src/augmentation.py lines 15-31): capture
dtypes, run RandomAffine (rotation draw folded into affine), restore
dtypes. -/
def Rotation.apply (affine : String → Grid → Grid) (cast : Dtype → Grid → Grid)
    (s : Subject) : Subject :=
  restoreDtypes cast (captureDtypes s) (randomAffine affine s)

/-- Scaling.apply_transform (src/augmentation.py lines 43-61): same shape as
Rotation with the sampled isotropic scale parameterising the affine. -/
def Scaling.apply (scale : ℚ) (affine : ℚ → String → Grid → Grid)
    (cast : Dtype → Grid → Grid) (s : Subject) : Subject :=
  restoreDtypes cast (captureDtypes s) (randomAffine (affine scale) s)

/-- Apply an external voxel-data operation to every ScalarImage only, as
tio.RandomNoise / tio.RandomBlur / Resample(scalars_only=True) do. -/
def applyToScalars (f : Grid → Grid) (s : Subject) : Subject :=
  s.map fun kv =>
    if kv.2.kind = EntityKind.scalar then
      (kv.1, { kv.2 with data := f kv.2.data })
    else kv

/-- GaussianNoise.apply_transform (src/augmentation.py lines 69-73): the
external tio.RandomNoise acts on scalar images only. -/
def GaussianNoise.apply (noise : Grid → Grid) (s : Subject) : Subject :=
  applyToScalars noise s

/-- GaussianBlur.apply_transform (src/augmentation.py lines 81-85): the
external tio.RandomBlur acts on scalar images only. -/
def GaussianBlur.apply (blur : Grid → Grid) (s : Subject) : Subject :=
  applyToScalars blur s

/-- Spatial shape (length along each axis) of a volume. -/
def gridShape (g : Grid) : ℕ × ℕ × ℕ :=
  (g.length, (g.headD []).length, ((g.headD []).headD []).length)

/-- tio Subject.spatial_shape: the shared spatial shape of the subject's
images, read off the first scalar/label entry. -/
def subjectSpatialShape (s : Subject) : ℕ × ℕ × ℕ :=
  match s.find? (fun kv =>
      decide (kv.2.kind = EntityKind.scalar ∨ kv.2.kind = EntityKind.label)) with
  | some kv => gridShape kv.2.data
  | none => (0, 0, 0)

/-- Keep the first n elements, padding with pad when fewer exist. -/
def padTruncate {α : Type} (n : ℕ) (pad : α) (xs : List α) : List α :=
  xs.take n ++ List.replicate (n - xs.length) pad

/-- tio.transforms.CropOrPad target (external): crop or pad a volume to the
target spatial shape (its shape contract; centering is irrelevant to the
claims). -/
def cropOrPad (sh : ℕ × ℕ × ℕ) (g : Grid) : Grid :=
  (padTruncate sh.1 [] g).map fun plane =>
    (padTruncate sh.2.1 [] plane).map fun row => padTruncate sh.2.2 0 row

/-- SimulateLowResolution.apply_transform (src/augmentation.py lines
140-167): record the input spatial shape, resample scalar images down at the
sampled spacing (nearest) then back up to spacing 1 (bspline) - both
external, scalars_only=True - and crop/pad any scalar image whose shape
changed back to the input shape. -/
def SimulateLowResolution.apply (down up : ℚ → Grid → Grid) (spacing : ℚ)
    (s : Subject) : Subject :=
  let inShape := subjectSpatialShape s
  let lowRes := applyToScalars (up 1) (applyToScalars (down spacing) s)
  lowRes.map fun kv =>
    if kv.2.kind = EntityKind.scalar ∧ gridShape kv.2.data ≠ inShape then
      (kv.1, { kv.2 with data := cropOrPad inShape kv.2.data })
    else kv

/-- All random draws and external primitives one pass of the composed
pipeline consumes. -/
structure AugDraws where
  rotGate : ℚ
  rotAffine : String → Grid → Grid
  rotCast : Dtype → Grid → Grid
  scaleGate : ℚ
  scaleDraw : ℚ
  scaleAffine : ℚ → String → Grid → Grid
  scaleCast : Dtype → Grid → Grid
  mirrorGate : ℚ
  mirrorAxes : Fin 3 → ℚ
  noiseGate : ℚ
  noiseF : Grid → Grid
  blurGate : ℚ
  blurF : Grid → Grid
  brightGate : ℚ
  brightDraw : ℚ
  contrastGate : ℚ
  contrastDraw : ℚ
  slrGate : ℚ
  slrDown : ℚ → Grid → Grid
  slrUp : ℚ → Grid → Grid
  slrSpacing : ℚ
  gammaGate : ℚ
  gammaPow : ℚ → ℚ
  gammaInvert : String → ℚ

/-- Modelled from the spec: the transform list of
ComposednnUNetTransforms.apply_transform (src/augmentation.py lines 223-233)
is not syntactically well-formed Python - a comma is missing between the
Mirroring() and GaussianNoise() elements, so the module cannot be imported -
hence the intended fixed order and the constructors' default probabilities
are taken from spec section 4.10, matching the constructors the source
lists.  Each element is one sub-transform behind its own tio probability
gate. -/
def composedTransformList (d : AugDraws) : List (Subject → Subject) :=
  [ gatedApply (1 / 5) d.rotGate (Rotation.apply d.rotAffine d.rotCast),
    gatedApply (1 / 5) d.scaleGate (Scaling.apply d.scaleDraw d.scaleAffine d.scaleCast),
    Mirroring.apply (1 / 2) d.mirrorGate d.mirrorAxes,
    gatedApply (3 / 20) d.noiseGate (GaussianNoise.apply d.noiseF),
    gatedApply (1 / 10) d.blurGate (GaussianBlur.apply d.blurF),
    gatedApply (3 / 20) d.brightGate (Brightness.apply d.brightDraw),
    gatedApply (3 / 20) d.contrastGate (Contrast.apply d.contrastDraw),
    gatedApply (1 / 8) d.slrGate (SimulateLowResolution.apply d.slrDown d.slrUp d.slrSpacing),
    gatedApply (3 / 20) d.gammaGate (Gamma.apply d.gammaPow d.gammaInvert) ]

/-- Modelled from the spec: ComposednnUNetTransforms.apply_transform composes
the list with tio.Compose, i.e. applies its elements left to right; the
class itself carries no probability argument, so the composition runs with
overall probability 1. -/
def ComposednnUNetTransforms.apply (d : AugDraws) (s : Subject) : Subject :=
  (composedTransformList d).foldl (fun subj t => t subj) s

/-! Helper lemmas on list indexing and sums. -/

theorem getD_map_of_lt {α β : Type} (f : α → β) (l : List α) (n : ℕ) (da : α) (db : β)
    (h : n < l.length) : (l.map f).getD n db = f (l.getD n da) := by
  have h2 : n < (l.map f).length := by simpa using h
  rw [List.getD_eq_getElem?_getD, List.getD_eq_getElem?_getD,
    List.getElem?_eq_getElem h2, List.getElem?_eq_getElem h]
  simp

theorem getD_mem_of_lt {α : Type} (l : List α) (n : ℕ) (d : α) (h : n < l.length) :
    l.getD n d ∈ l := by
  rw [List.getD_eq_getElem?_getD, List.getElem?_eq_getElem h]
  exact List.getElem_mem h

theorem getD_eq_getElem_of_lt {α : Type} (l : List α) (n : ℕ) (d : α) (h : n < l.length) :
    l.getD n d = l[n] := by
  rw [List.getD_eq_getElem?_getD, List.getElem?_eq_getElem h]
  rfl

theorem sum_map_div (l : List ℚ) (c : ℚ) : (l.map fun x => x / c).sum = l.sum / c := by
  induction l with
  | nil => simp
  | cons x t ih => simp [ih, add_div]

theorem foldl_add_eq {α : Type} (f : α → ℚ) (l : List α) (c : ℚ) :
    l.foldl (fun acc p => acc + f p) c = c + (l.map f).sum := by
  induction l generalizing c with
  | nil => simp
  | cons x t ih => simp [ih, add_assoc]

/-! Facts about get_weights. -/

/-- Closed form of the unnormalised-weights loop. -/
theorem unnormalisedWeightsAux_eq (n : ℕ) : ∀ w : ℚ,
    unnormalisedWeightsAux n w = (List.range n).map fun i => w / 2 ^ i := by
  induction n with
  | zero => intro w; simp [unnormalisedWeightsAux]
  | succ m ih =>
    intro w
    rw [unnormalisedWeightsAux, ih (w / 2), List.range_succ_eq_map, List.map_cons,
      List.map_map]
    refine congrArg₂ _ (by simp) ?_
    refine List.map_congr_left fun i _ => ?_
    simp only [Function.comp, pow_succ]
    rw [div_div, mul_comm]

/-- Sum of the unnormalised weights. -/
theorem unnormalisedWeightsAux_sum (n : ℕ) : ∀ w : ℚ,
    (unnormalisedWeightsAux n w).sum = w * (2 - 2 / 2 ^ n) := by
  induction n with
  | zero => intro w; norm_num [unnormalisedWeightsAux]
  | succ m ih =>
    intro w
    have h2 : (2:ℚ) ^ m ≠ 0 := pow_ne_zero m two_ne_zero
    rw [unnormalisedWeightsAux, List.sum_cons, ih (w / 2), pow_succ]
    field_simp
    ring

/-- The normalising denominator of get_weights. -/
def weightsDenom (n : ℕ) : ℚ := 2 - 2 / 2 ^ n

theorem one_le_weightsDenom (n : ℕ) (hn : 1 ≤ n) : 1 ≤ weightsDenom n := by
  have h2 : (2:ℚ) ≤ 2 ^ n := by
    calc (2:ℚ) = 2 ^ 1 := (pow_one 2).symm
    _ ≤ 2 ^ n := pow_le_pow_right₀ (by norm_num) hn
  have hpos : (0:ℚ) < 2 ^ n := by positivity
  have h3 : (2:ℚ) / 2 ^ n ≤ 1 := (div_le_one hpos).mpr h2
  unfold weightsDenom
  linarith

theorem get_weights_eq (n : ℕ) :
    get_weights n = (List.range n).map fun i => (1 / 2 ^ i) / weightsDenom n := by
  show (unnormalisedWeightsAux n 1).map
      (fun x => x / (unnormalisedWeightsAux n 1).sum) = _
  rw [unnormalisedWeightsAux_sum n 1, one_mul, unnormalisedWeightsAux_eq n 1,
    List.map_map]
  refine List.map_congr_left fun i _ => ?_
  simp [weightsDenom]

theorem get_weights_getD (n i : ℕ) (h : i < n) :
    (get_weights n).getD i 0 = (1 / 2 ^ i) / weightsDenom n := by
  rw [get_weights_eq, getD_map_of_lt _ _ _ 0 0 (by simpa using h)]
  congr 1
  rw [List.getD_eq_getElem?_getD, List.getElem?_range h]
  rfl

theorem get_weights_one : get_weights 1 = [1] := by
  show (unnormalisedWeightsAux 1 1).map
      (fun x => x / (unnormalisedWeightsAux 1 1).sum) = [1]
  have h : unnormalisedWeightsAux 1 1 = [1] := by
    norm_num [unnormalisedWeightsAux]
  rw [h]
  norm_num

theorem get_weights_three : get_weights 3 = [4 / 7, 2 / 7, 1 / 7] := by
  show (unnormalisedWeightsAux 3 1).map
      (fun x => x / (unnormalisedWeightsAux 3 1).sum) = [4 / 7, 2 / 7, 1 / 7]
  have h : unnormalisedWeightsAux 3 1 = [1, 1 / 2, 1 / 4] := by
    norm_num [unnormalisedWeightsAux]
  rw [h]
  norm_num

/-- C2: for every n ≥ 1, get_weights n has length n, entry i equal to
(1/2)^i divided by the sum of (1/2)^j over j < n, each entry exactly twice
the next, the sequence strictly decreasing, the exact sum 1 (hence within
1e-6 of 1.0), and get_weights 1 = [1]. -/
theorem get_weights_spec (n : ℕ) (hn : 1 ≤ n) :
    (get_weights n).length = n ∧
    (∀ i, i < n → (get_weights n).getD i 0 =
      ((1:ℚ) / 2) ^ i / (((List.range n).map fun j => ((1:ℚ) / 2) ^ j).sum)) ∧
    (∀ i, i + 1 < n → (get_weights n).getD i 0 = 2 * (get_weights n).getD (i + 1) 0) ∧
    (∀ i, i + 1 < n → (get_weights n).getD (i + 1) 0 < (get_weights n).getD i 0) ∧
    (get_weights n).sum = 1 ∧
    get_weights 1 = [1] := by
  have hS1 : 1 ≤ weightsDenom n := one_le_weightsDenom n hn
  have hSpos : 0 < weightsDenom n := lt_of_lt_of_le one_pos hS1
  have hSne : weightsDenom n ≠ 0 := ne_of_gt hSpos
  have hrange : ((List.range n).map fun j => ((1:ℚ) / 2) ^ j).sum = weightsDenom n := by
    have := unnormalisedWeightsAux_sum n 1
    rw [unnormalisedWeightsAux_eq] at this
    have heq : ((List.range n).map fun j => ((1:ℚ) / 2) ^ j) =
        ((List.range n).map fun i => (1:ℚ) / 2 ^ i) := by
      refine List.map_congr_left fun i _ => ?_
      rw [one_div, one_div, inv_pow]
    rw [heq, this, one_mul]; rfl
  have hhalf : ∀ i, i + 1 < n →
      (get_weights n).getD i 0 = 2 * (get_weights n).getD (i + 1) 0 := by
    intro i hi
    have hi1 : i < n := by omega
    rw [get_weights_getD n i hi1, get_weights_getD n (i + 1) hi]
    have h2 : (2:ℚ) ^ i ≠ 0 := pow_ne_zero i two_ne_zero
    rw [pow_succ]
    field_simp
    ring
  have hposi : ∀ i, i < n → 0 < (get_weights n).getD i 0 := by
    intro i hi
    rw [get_weights_getD n i hi]
    have h2 : (0:ℚ) < 1 / 2 ^ i := by positivity
    exact div_pos h2 hSpos
  refine ⟨?_, ?_, hhalf, ?_, ?_, get_weights_one⟩
  · rw [get_weights_eq]; simp
  · intro i hi
    rw [get_weights_getD n i hi, hrange]
    congr 1
    rw [one_div, one_div, inv_pow]
  · intro i hi
    have h1 := hhalf i hi
    have h2 := hposi (i + 1) hi
    linarith
  · show ((unnormalisedWeightsAux n 1).map
      (fun x => x / (unnormalisedWeightsAux n 1).sum)).sum = 1
    rw [sum_map_div]
    apply div_self
    rw [unnormalisedWeightsAux_sum n 1, one_mul]
    exact hSne

/-- Witness for get_weights_spec at n = 3. -/
theorem get_weights_spec_witness :
    1 ≤ 3 ∧
    ((get_weights 3).length = 3 ∧
     (∀ i, i < 3 → (get_weights 3).getD i 0 =
       ((1:ℚ) / 2) ^ i / (((List.range 3).map fun j => ((1:ℚ) / 2) ^ j).sum)) ∧
     (∀ i, i + 1 < 3 → (get_weights 3).getD i 0 = 2 * (get_weights 3).getD (i + 1) 0) ∧
     (∀ i, i + 1 < 3 → (get_weights 3).getD (i + 1) 0 < (get_weights 3).getD i 0) ∧
     (get_weights 3).sum = 1 ∧
     get_weights 1 = [1]) :=
  ⟨by norm_num, get_weights_spec 3 (by norm_num)⟩

/-- C3: the deep-supervision loss equals the weighted sum of per-level base
losses with weights get_weights L; for L = 1 it equals the single level's
base loss exactly, and for L = 3 with per-level base losses a, b, c it
equals (4a + 2b + c) / 7. -/
theorem deepSuprLoss_spec {α β : Type} (baseLoss : α → β → ℚ) (levels : List α)
    (target : β) (l l1 l2 l3 : α) :
    deepSuprLoss baseLoss levels target =
      (((get_weights levels.length).zip levels).map fun p => p.1 * baseLoss p.2 target).sum ∧
    deepSuprLoss baseLoss [l] target = baseLoss l target ∧
    deepSuprLoss baseLoss [l1, l2, l3] target =
      (4 * baseLoss l1 target + 2 * baseLoss l2 target + baseLoss l3 target) / 7 := by
  refine ⟨?_, ?_, ?_⟩
  · unfold deepSuprLoss
    exact (foldl_add_eq (fun (p : ℚ × α) => p.1 * baseLoss p.2 target) _ 0).trans
      (zero_add _)
  · show ((get_weights [l].length).zip [l]).foldl
      (fun acc p => acc + p.1 * baseLoss p.2 target) 0 = baseLoss l target
    rw [show [l].length = 1 from rfl, get_weights_one]
    show 0 + 1 * baseLoss l target = baseLoss l target
    ring
  · show ((get_weights [l1, l2, l3].length).zip [l1, l2, l3]).foldl
      (fun acc p => acc + p.1 * baseLoss p.2 target) 0 =
      (4 * baseLoss l1 target + 2 * baseLoss l2 target + baseLoss l3 target) / 7
    rw [show [l1, l2, l3].length = 3 from rfl, get_weights_three]
    show 0 + 4 / 7 * baseLoss l1 target + 2 / 7 * baseLoss l2 target +
      1 / 7 * baseLoss l3 target =
      (4 * baseLoss l1 target + 2 * baseLoss l2 target + baseLoss l3 target) / 7
    ring

/-! Frame and error-handling claims for the intensity transforms. -/

theorem map_eq_self_of_fix {α : Type} (l : List α) (f : α → α)
    (h : ∀ a ∈ l, f a = a) : l.map f = l := by
  have h2 := List.map_congr_left (f := f) (g := id) h
  simpa using h2

/-- A subject with a label map and no scalar image. -/
def labelOnlySubject : Subject :=
  [("seg", { kind := EntityKind.label, dtype := Dtype.int64, data := [[[0, 1]]] })]

/-- A subject with a scalar image at position 0 and a label map at
position 1. -/
def mixedSubject : Subject :=
  [("img", { kind := EntityKind.scalar, dtype := Dtype.float32, data := [[[0, 1]]] }),
   ("seg", { kind := EntityKind.label, dtype := Dtype.int64, data := [[[0, 1]]] })]

/-- C7: a subject containing no ScalarImage entity is returned unchanged by
Brightness, Contrast and Gamma - their scanning loops act as no-ops instead
of raising. -/
theorem no_scalar_noop (x y : ℚ) (pw : ℚ → ℚ) (invertDraw : String → ℚ)
    (s : Subject) (h : ∀ kv ∈ s, (Prod.snd kv).kind ≠ EntityKind.scalar) :
    Brightness.apply x s = s ∧ Contrast.apply y s = s ∧
    Gamma.apply pw invertDraw s = s := by
  refine ⟨?_, ?_, ?_⟩
  · exact map_eq_self_of_fix s _ fun kv hkv => if_neg (h kv hkv)
  · exact map_eq_self_of_fix s _ fun kv hkv => if_neg (h kv hkv)
  · exact map_eq_self_of_fix s _ fun kv hkv => if_neg (h kv hkv)

/-- Witness for no_scalar_noop on the label-only subject. -/
theorem no_scalar_noop_witness :
    (∀ kv ∈ labelOnlySubject, (Prod.snd kv).kind ≠ EntityKind.scalar) ∧
    (Brightness.apply 2 labelOnlySubject = labelOnlySubject ∧
     Contrast.apply 2 labelOnlySubject = labelOnlySubject ∧
     Gamma.apply (fun q => q) (fun _ => 1) labelOnlySubject = labelOnlySubject) :=
  ⟨by decide, no_scalar_noop 2 2 (fun q => q) (fun _ => 1) labelOnlySubject (by decide)⟩

/-- C10: Brightness, Contrast and Gamma leave every entry that is not a
ScalarImage (label maps and any other entry) unchanged at its position. -/
theorem intensity_frame_spec (x y : ℚ) (pw : ℚ → ℚ) (invertDraw : String → ℚ)
    (s : Subject) (n : ℕ) (hn : n < s.length)
    (hk : (s.getD n blankEntry).2.kind ≠ EntityKind.scalar) :
    (Brightness.apply x s).getD n blankEntry = s.getD n blankEntry ∧
    (Contrast.apply y s).getD n blankEntry = s.getD n blankEntry ∧
    (Gamma.apply pw invertDraw s).getD n blankEntry = s.getD n blankEntry := by
  refine ⟨?_, ?_, ?_⟩
  · exact (getD_map_of_lt (Brightness.entry x) s n blankEntry blankEntry hn).trans
      (if_neg hk)
  · exact (getD_map_of_lt (Contrast.entry y (Contrast.get_min_max s)) s n
      blankEntry blankEntry hn).trans (if_neg hk)
  · exact (getD_map_of_lt (Gamma.entry pw invertDraw (Gamma.get_min_max s)) s n
      blankEntry blankEntry hn).trans (if_neg hk)

/-- Witness for intensity_frame_spec at the label entry of mixedSubject. -/
theorem intensity_frame_spec_witness :
    (1 < mixedSubject.length ∧
     (mixedSubject.getD 1 blankEntry).2.kind ≠ EntityKind.scalar) ∧
    ((Brightness.apply 2 mixedSubject).getD 1 blankEntry =
       mixedSubject.getD 1 blankEntry ∧
     (Contrast.apply 2 mixedSubject).getD 1 blankEntry =
       mixedSubject.getD 1 blankEntry ∧
     (Gamma.apply (fun q => q) (fun _ => 1) mixedSubject).getD 1 blankEntry =
       mixedSubject.getD 1 blankEntry) :=
  ⟨⟨by decide, by decide⟩,
   intensity_frame_spec 2 2 (fun q => q) (fun _ => 1) mixedSubject 1 (by decide)
     (by decide)⟩

/-! The pooled (last-key) min/max bug of Contrast and Gamma (claim C1) and
the Gamma denominator (claim C9). -/

/-- ScalarImage with values spanning [0, 1]. -/
def imgLowRange : Image :=
  { kind := EntityKind.scalar, dtype := Dtype.float32, data := [[[0, 1]]] }

/-- ScalarImage with values spanning [10, 20], disjoint from imgLowRange. -/
def imgHighRange : Image :=
  { kind := EntityKind.scalar, dtype := Dtype.float32, data := [[[10, 20]]] }

/-- Subject bundling two scalar images with disjoint intensity ranges. -/
def disjointSubject : Subject := [("a", imgLowRange), ("b", imgHighRange)]

/-- C1 evaluated at the failing input: get_min_max returns the range
(10, 20) of the last scalar image only, Contrast.apply clamps every key
with it, and with contrast factor 1 the image at key a - whose own range is
(0, 1), witnessed by tensorMax = 1 - comes out as constant 10, far outside
its own original range.  The claimed per-key range computation does not
happen in the code. -/
theorem contrast_pooled_range_bug :
    Contrast.get_min_max disjointSubject = (10, 20) ∧
    ((Contrast.apply 1 disjointSubject).getD 0 blankEntry).2.data = [[[10, 10]]] ∧
    tensorMax imgLowRange.data = 1 := by
  refine ⟨?_, ?_, ?_⟩ <;>
    norm_num [Contrast.get_min_max, Contrast.apply, Contrast.entry, disjointSubject,
      imgLowRange, imgHighRange, tensorMin, tensorMax, gridFlatten, gridMap, clampQ,
      blankEntry, min_def, max_def]

/-- Scalar image with constant data. -/
def imgConstant : Image :=
  { kind := EntityKind.scalar, dtype := Dtype.float32, data := [[[5, 5]]] }

/-- Subject whose last-iterated scalar image is constant, making
get_min_max degenerate. -/
def degenerateSubject : Subject := [("a", imgLowRange), ("c", imgConstant)]

/-- C9: whenever the pair returned by get_min_max satisfies max > min the
Gamma normalisation denominator is nonzero, and on degenerateSubject (last
scalar image constant) the subject still contains a scalar image - so the
unguarded division in the loop body executes - while the denominator is
exactly zero. -/
theorem gamma_denominator_spec :
    (∀ s : Subject, (Gamma.get_min_max s).1 < (Gamma.get_min_max s).2 →
      gammaDenominator s ≠ 0) ∧
    (hasScalarImage degenerateSubject ∧ gammaDenominator degenerateSubject = 0) := by
  refine ⟨fun s h => sub_ne_zero_of_ne (ne_of_gt h), ?_, ?_⟩
  · exact ⟨("a", imgLowRange), by decide, rfl⟩
  · norm_num [gammaDenominator, Gamma.get_min_max, degenerateSubject, imgLowRange,
      imgConstant, tensorMin, tensorMax, gridFlatten, min_def, max_def]

/-- Witness for gamma_denominator_spec's universally quantified part at
disjointSubject, whose get_min_max pair is (10, 20). -/
theorem gamma_denominator_spec_witness :
    (Gamma.get_min_max disjointSubject).1 < (Gamma.get_min_max disjointSubject).2 ∧
    gammaDenominator disjointSubject ≠ 0 :=
  ⟨by norm_num [Gamma.get_min_max, disjointSubject, imgLowRange, imgHighRange,
      tensorMin, tensorMax, gridFlatten, min_def, max_def],
   gamma_denominator_spec.1 disjointSubject
     (by norm_num [Gamma.get_min_max, disjointSubject, imgLowRange, imgHighRange,
       tensorMin, tensorMax, gridFlatten, min_def, max_def])⟩

/-! Mirroring: the construction-time activation gate (claim C5). -/

/-- Subject with a single scalar image that is asymmetric along axis 0. -/
def mirrorSubject : Subject :=
  [("img", { kind := EntityKind.scalar, dtype := Dtype.float32, data := [[[1]], [[2]]] })]

/-- C5 counterexample: all three per-axis draws fall below 0.5, so by the
claim every axis is flipped; yet with a gate draw of 3/4 the transform
returns the subject unchanged, because Mirroring is constructed with its
own activation probability (init default 0.5).  The flips the per-axis
draws demand would have changed the data, as the second conjunct shows, so
the claimed absence of an overall activation gate is false on the code. -/
theorem mirroring_gate_counterexample :
    Mirroring.apply (1 / 2) (3 / 4) (fun _ => 0) mirrorSubject = mirrorSubject ∧
    mirroringBody (fun _ => 0) mirrorSubject ≠ mirrorSubject := by
  constructor
  · show gatedApply (1 / 2) (3 / 4) (mirroringBody fun _ => 0) mirrorSubject = _
    rw [gatedApply, if_neg (by norm_num)]
  · have hd : decide ((0:ℚ) < 1 / 2) = true := decide_eq_true (by norm_num)
    have hfr : List.finRange 3 = [0, 1, 2] := rfl
    simp only [mirroringBody, hfr, hd, List.filter_cons, List.filter_nil, if_pos,
      List.foldl_cons, List.foldl_nil]
    norm_num [subjectFlip, flipAxis, mirrorSubject]
    decide

/-- C5 amended: Mirroring carries its own activation gate (default
probability 0.5).  When the gate draw falls below p the body runs exactly
once, flipping precisely the axes whose draw falls below 0.5; each flip
acts identically on scalar images and label maps (the same pure index
reversal, shown for axis 0), and leaves non-image entries unchanged. -/
theorem mirroring_gated_spec (p gate : ℚ) (draws : Fin 3 → ℚ) (s : Subject)
    (hgate : gate < p) :
    Mirroring.apply p gate draws s = mirroringBody draws s ∧
    (∀ a : Fin 3, ∀ n : ℕ, n < s.length →
      (((s.getD n blankEntry).2.kind = EntityKind.scalar ∨
        (s.getD n blankEntry).2.kind = EntityKind.label) →
        (subjectFlip a s).getD n blankEntry =
          ((s.getD n blankEntry).1,
           { (s.getD n blankEntry).2 with
             data := flipAxis a (s.getD n blankEntry).2.data })) ∧
      (¬ ((s.getD n blankEntry).2.kind = EntityKind.scalar ∨
          (s.getD n blankEntry).2.kind = EntityKind.label) →
        (subjectFlip a s).getD n blankEntry = s.getD n blankEntry)) ∧
    (∀ g : Grid, ∀ i : ℕ, i < g.length →
      (flipAxis 0 g).getD i [] = g.getD (g.length - 1 - i) []) := by
  refine ⟨if_pos hgate, ?_, ?_⟩
  · intro a n hn
    constructor
    · intro hk
      rw [subjectFlip, getD_map_of_lt _ s n blankEntry blankEntry hn]
      exact if_pos hk
    · intro hk
      rw [subjectFlip, getD_map_of_lt _ s n blankEntry blankEntry hn]
      exact if_neg hk
  · intro g i hi
    have h1 : flipAxis 0 g = g.reverse := if_pos rfl
    rw [h1, List.getD_eq_getElem?_getD, List.getD_eq_getElem?_getD,
      List.getElem?_reverse hi]

/-- Witness for mirroring_gated_spec with an open gate on mirrorSubject. -/
theorem mirroring_gated_spec_witness :
    (0:ℚ) < 1 / 2 ∧
    (Mirroring.apply (1 / 2) 0 (fun _ => 0) mirrorSubject =
       mirroringBody (fun _ => 0) mirrorSubject ∧
     (∀ a : Fin 3, ∀ n : ℕ, n < mirrorSubject.length →
       (((mirrorSubject.getD n blankEntry).2.kind = EntityKind.scalar ∨
         (mirrorSubject.getD n blankEntry).2.kind = EntityKind.label) →
         (subjectFlip a mirrorSubject).getD n blankEntry =
           ((mirrorSubject.getD n blankEntry).1,
            { (mirrorSubject.getD n blankEntry).2 with
              data := flipAxis a (mirrorSubject.getD n blankEntry).2.data })) ∧
       (¬ ((mirrorSubject.getD n blankEntry).2.kind = EntityKind.scalar ∨
           (mirrorSubject.getD n blankEntry).2.kind = EntityKind.label) →
         (subjectFlip a mirrorSubject).getD n blankEntry =
           mirrorSubject.getD n blankEntry)) ∧
     (∀ g : Grid, ∀ i : ℕ, i < g.length →
       (flipAxis 0 g).getD i [] = g.getD (g.length - 1 - i) [])) :=
  ⟨by norm_num,
   mirroring_gated_spec (1 / 2) 0 (fun _ => 0) mirrorSubject (by norm_num)⟩

/-! Dtype preservation by Rotation and Scaling (claim C6). -/

/-- Looking up an entry's key in the captured dtype dict returns that
entry's original dtype, provided the subject's keys are distinct (torchio
subjects are Python dicts, so keys are unique). -/
theorem lookup_captureDtypes (s : Subject) (hnd : (s.map Prod.fst).Nodup) :
    ∀ n : ℕ, n < s.length →
    ((s.getD n blankEntry).2.kind = EntityKind.scalar ∨
     (s.getD n blankEntry).2.kind = EntityKind.label) →
    List.lookup (s.getD n blankEntry).1 (captureDtypes s) =
      some (s.getD n blankEntry).2.dtype := by
  induction s with
  | nil =>
    intro n hn
    simp at hn
  | cons kv t ih =>
    intro n hn hk
    rw [List.map_cons, List.nodup_cons] at hnd
    obtain ⟨hkey, hnd2⟩ := hnd
    have hc : captureDtypes (kv :: t) =
        (if kv.2.kind = EntityKind.scalar ∨ kv.2.kind = EntityKind.label then
          [(kv.1, kv.2.dtype)] else []) ++ captureDtypes t := by
      by_cases hcond : kv.2.kind = EntityKind.scalar ∨ kv.2.kind = EntityKind.label
      · rw [if_pos hcond, captureDtypes, List.filterMap_cons, if_pos hcond]
        rfl
      · rw [if_neg hcond, captureDtypes, List.filterMap_cons, if_neg hcond]
        rfl
    match n with
    | 0 =>
      rw [List.getD_cons_zero] at hk ⊢
      rw [hc, if_pos hk]
      simp [List.lookup]
    | Nat.succ m =>
      rw [List.getD_cons_succ] at hk ⊢
      have hm : m < t.length := by
        simp at hn
        omega
      have hmem : t.getD m blankEntry ∈ t := getD_mem_of_lt t m blankEntry hm
      have hne : (t.getD m blankEntry).1 ≠ kv.1 := by
        intro heq
        exact hkey (heq ▸ List.mem_map_of_mem Prod.fst hmem)
      have htail : List.lookup (t.getD m blankEntry).1 (captureDtypes t) =
          some (t.getD m blankEntry).2.dtype := ih hnd2 m hm hk
      rw [hc]
      by_cases hkv : kv.2.kind = EntityKind.scalar ∨ kv.2.kind = EntityKind.label
      · rw [if_pos hkv, List.singleton_append, List.lookup,
          beq_eq_false_iff_ne.2 hne]
        exact htail
      · rw [if_neg hkv, List.nil_append]
        exact htail

/-- Applying RandomAffine and then restoring the captured dtypes leaves
every scalar/label entry with its pre-call dtype. -/
theorem restore_after_affine_dtype (f : String → Grid → Grid)
    (cast : Dtype → Grid → Grid) (s : Subject) (n : ℕ)
    (hnd : (s.map Prod.fst).Nodup) (hn : n < s.length)
    (hk : (s.getD n blankEntry).2.kind = EntityKind.scalar ∨
          (s.getD n blankEntry).2.kind = EntityKind.label) :
    ((restoreDtypes cast (captureDtypes s) (randomAffine f s)).getD n
      blankEntry).2.dtype = (s.getD n blankEntry).2.dtype := by
  have hra : (randomAffine f s).getD n blankEntry =
      ((s.getD n blankEntry).1,
       { kind := (s.getD n blankEntry).2.kind, dtype := Dtype.float32,
         data := f (s.getD n blankEntry).1 (s.getD n blankEntry).2.data }) := by
    rw [randomAffine, getD_map_of_lt _ s n blankEntry blankEntry hn]
    exact if_pos hk
  have hlen : n < (randomAffine f s).length := by
    simpa [randomAffine] using hn
  have hl := lookup_captureDtypes s hnd n hn hk
  rw [restoreDtypes, getD_map_of_lt _ _ n blankEntry blankEntry hlen, hra]
  dsimp only
  rw [if_pos hk, hl]

/-- C6: Rotation and Scaling restore every scalar/label entity's dtype to
its exact pre-call dtype, even though the wrapped RandomAffine upcasts all
image data to float32. -/
theorem rotation_scaling_dtype_spec (affine : String → Grid → Grid)
    (scale : ℚ) (affine2 : ℚ → String → Grid → Grid)
    (cast : Dtype → Grid → Grid) (s : Subject) (n : ℕ)
    (hnd : (s.map Prod.fst).Nodup) (hn : n < s.length)
    (hk : (s.getD n blankEntry).2.kind = EntityKind.scalar ∨
          (s.getD n blankEntry).2.kind = EntityKind.label) :
    ((Rotation.apply affine cast s).getD n blankEntry).2.dtype =
      (s.getD n blankEntry).2.dtype ∧
    ((Scaling.apply scale affine2 cast s).getD n blankEntry).2.dtype =
      (s.getD n blankEntry).2.dtype :=
  ⟨restore_after_affine_dtype affine cast s n hnd hn hk,
   restore_after_affine_dtype (affine2 scale) cast s n hnd hn hk⟩

/-- Witness for rotation_scaling_dtype_spec at the int64 label entry of
mixedSubject. -/
theorem rotation_scaling_dtype_spec_witness :
    ((mixedSubject.map Prod.fst).Nodup ∧ 1 < mixedSubject.length ∧
     ((mixedSubject.getD 1 blankEntry).2.kind = EntityKind.scalar ∨
      (mixedSubject.getD 1 blankEntry).2.kind = EntityKind.label)) ∧
    (((Rotation.apply (fun _ g => g) (fun _ g => g) mixedSubject).getD 1
        blankEntry).2.dtype = (mixedSubject.getD 1 blankEntry).2.dtype ∧
     ((Scaling.apply 1 (fun _ _ g => g) (fun _ g => g) mixedSubject).getD 1
        blankEntry).2.dtype = (mixedSubject.getD 1 blankEntry).2.dtype) :=
  ⟨⟨by decide, by decide, by decide⟩,
   rotation_scaling_dtype_spec (fun _ g => g) 1 (fun _ _ g => g) (fun _ g => g)
     mixedSubject 1 (by decide) (by decide) (by decide)⟩

/-! Shape restoration by SimulateLowResolution (claim C8). -/

theorem padTruncate_length {α : Type} (n : ℕ) (pad : α) (xs : List α) :
    (padTruncate n pad xs).length = n := by
  simp only [padTruncate, List.length_append, List.length_take, List.length_replicate]
  omega

/-- cropOrPad delivers exactly the target shape (for nonempty target
heights and widths). -/
theorem gridShape_cropOrPad (sh : ℕ × ℕ × ℕ) (g : Grid)
    (hp1 : 0 < sh.1) (hp2 : 0 < sh.2.1) :
    gridShape (cropOrPad sh g) = sh := by
  obtain ⟨h, w, d⟩ := sh
  simp only at hp1 hp2
  show gridShape ((padTruncate h [] g).map fun plane =>
    (padTruncate w [] plane).map fun row => padTruncate d 0 row) = (h, w, d)
  have hl1 : (padTruncate h ([] : List (List ℚ)) g).length = h := padTruncate_length h [] g
  cases hout : padTruncate h ([] : List (List ℚ)) g with
  | nil =>
    rw [hout] at hl1
    simp at hl1
    omega
  | cons a t =>
    rw [hout] at hl1
    have hl2 : (padTruncate w ([] : List ℚ) a).length = w := padTruncate_length w [] a
    cases hinner : padTruncate w ([] : List ℚ) a with
    | nil =>
      rw [hinner] at hl2
      simp at hl2
      omega
    | cons b t2 =>
      rw [hinner] at hl2
      simp only [gridShape, List.map_cons, List.length_cons, List.length_map,
        List.headD_cons, hinner, Prod.mk.injEq]
      refine ⟨?_, ?_, ?_⟩
      · simp at hl1
        omega
      · simp at hl2
        omega
      · exact padTruncate_length d 0 b

/-- C8: for every sampled spacing and every behaviour of the external
down/up resamples, SimulateLowResolution returns a subject in which every
scalar/label image at position n has spatial shape equal to the input
subject's shared spatial shape, and every entry that is not a ScalarImage
is completely unchanged. -/
theorem slr_shape_spec (down up : ℚ → Grid → Grid) (spacing : ℚ) (s : Subject)
    (hSh : ∀ kv ∈ s, ((Prod.snd kv).kind = EntityKind.scalar ∨
        (Prod.snd kv).kind = EntityKind.label) →
        gridShape (Prod.snd kv).data = subjectSpatialShape s)
    (hp1 : 0 < (subjectSpatialShape s).1)
    (hp2 : 0 < (subjectSpatialShape s).2.1) :
    ∀ n : ℕ, n < s.length →
      ((((s.getD n blankEntry).2.kind = EntityKind.scalar ∨
         (s.getD n blankEntry).2.kind = EntityKind.label) →
        gridShape (((SimulateLowResolution.apply down up spacing s).getD n
          blankEntry).2.data) = subjectSpatialShape s) ∧
       ((s.getD n blankEntry).2.kind ≠ EntityKind.scalar →
        (SimulateLowResolution.apply down up spacing s).getD n blankEntry =
          s.getD n blankEntry)) := by
  intro n hn
  have hlen1 : n < (applyToScalars (down spacing) s).length := by
    simpa [applyToScalars] using hn
  have hlen2 : n <
      (applyToScalars (up 1) (applyToScalars (down spacing) s)).length := by
    simpa [applyToScalars] using hn
  have h1 : (applyToScalars (down spacing) s).getD n blankEntry =
      (if (s.getD n blankEntry).2.kind = EntityKind.scalar then
        ((s.getD n blankEntry).1,
         { (s.getD n blankEntry).2 with
           data := down spacing (s.getD n blankEntry).2.data })
       else s.getD n blankEntry) := by
    rw [applyToScalars, getD_map_of_lt _ s n blankEntry blankEntry hn]
  have hout : (SimulateLowResolution.apply down up spacing s).getD n blankEntry =
      (let kv2 := (applyToScalars (up 1)
          (applyToScalars (down spacing) s)).getD n blankEntry
       if kv2.2.kind = EntityKind.scalar ∧
          gridShape kv2.2.data ≠ subjectSpatialShape s then
         (kv2.1, { kv2.2 with data := cropOrPad (subjectSpatialShape s) kv2.2.data })
       else kv2) := by
    rw [SimulateLowResolution.apply,
      getD_map_of_lt _ _ n blankEntry blankEntry hlen2]
  by_cases hsc : (s.getD n blankEntry).2.kind = EntityKind.scalar
  · -- the scalar-image case: the fixup loop guarantees the shape
    have h2 : (applyToScalars (up 1) (applyToScalars (down spacing) s)).getD n
        blankEntry =
        ((s.getD n blankEntry).1,
         { (s.getD n blankEntry).2 with
           data := up 1 (down spacing (s.getD n blankEntry).2.data) }) := by
      rw [applyToScalars, getD_map_of_lt _ _ n blankEntry blankEntry hlen1, h1,
        if_pos hsc]
      exact if_pos hsc
    refine ⟨?_, fun hns => absurd hsc hns⟩
    intro _
    rw [hout, h2]
    dsimp only
    by_cases hne : gridShape (up 1 (down spacing (s.getD n blankEntry).2.data)) ≠
        subjectSpatialShape s
    · rw [if_pos ⟨hsc, hne⟩]
      exact gridShape_cropOrPad (subjectSpatialShape s) _ hp1 hp2
    · rw [if_neg fun hand => hne hand.2]
      exact not_not.mp hne
  · -- not a scalar image: both resamples and the fixup leave the entry
    have h2 : (applyToScalars (up 1) (applyToScalars (down spacing) s)).getD n
        blankEntry = s.getD n blankEntry := by
      rw [applyToScalars, getD_map_of_lt _ _ n blankEntry blankEntry hlen1, h1,
        if_neg hsc]
      exact if_neg hsc
    have h3 : (SimulateLowResolution.apply down up spacing s).getD n blankEntry =
        s.getD n blankEntry := by
      rw [hout, h2]
      dsimp only
      rw [if_neg fun hand => hsc hand.1]
    refine ⟨?_, fun _ => h3⟩
    intro hk
    rw [h3]
    exact hSh (s.getD n blankEntry) (getD_mem_of_lt s n blankEntry hn) hk

/-- Subject used as the SimulateLowResolution witness: one scalar image and
one label map of shape (1, 1, 2). -/
def slrSubject : Subject :=
  [("img", { kind := EntityKind.scalar, dtype := Dtype.float32, data := [[[1, 2]]] }),
   ("seg", { kind := EntityKind.label, dtype := Dtype.int64, data := [[[0, 1]]] })]

/-- Witness for slr_shape_spec on slrSubject with degenerate external
resamples that throw the data away, exercising the crop/pad fixup. -/
theorem slr_shape_spec_witness :
    ((∀ kv ∈ slrSubject, ((Prod.snd kv).kind = EntityKind.scalar ∨
        (Prod.snd kv).kind = EntityKind.label) →
        gridShape (Prod.snd kv).data = subjectSpatialShape slrSubject) ∧
     0 < (subjectSpatialShape slrSubject).1 ∧
     0 < (subjectSpatialShape slrSubject).2.1) ∧
    (∀ n : ℕ, n < slrSubject.length →
      ((((slrSubject.getD n blankEntry).2.kind = EntityKind.scalar ∨
         (slrSubject.getD n blankEntry).2.kind = EntityKind.label) →
        gridShape (((SimulateLowResolution.apply (fun _ _ => []) (fun _ _ => [])
          1 slrSubject).getD n blankEntry).2.data) =
          subjectSpatialShape slrSubject) ∧
       ((slrSubject.getD n blankEntry).2.kind ≠ EntityKind.scalar →
        (SimulateLowResolution.apply (fun _ _ => []) (fun _ _ => []) 1
          slrSubject).getD n blankEntry = slrSubject.getD n blankEntry))) :=
  ⟨⟨by decide, by decide, by decide⟩,
   slr_shape_spec (fun _ _ => []) (fun _ _ => []) 1 slrSubject (by decide)
     (by decide) (by decide)⟩

/-! Composition order of the full pipeline (claim C4). -/

/-- C4 (the order the spec intends; the source list literal itself cannot
parse, see composedTransformList): one pass of the composed pipeline is
exactly the nine sub-transforms applied in the fixed order Rotation,
Scaling, Mirroring, GaussianNoise, GaussianBlur, Brightness, Contrast,
SimulateLowResolution, Gamma, each exactly once behind its own probability
gate, with the composition itself ungated (overall probability 1). -/
theorem composed_order_spec (d : AugDraws) (s : Subject) :
    ComposednnUNetTransforms.apply d s =
      gatedApply (3 / 20) d.gammaGate (Gamma.apply d.gammaPow d.gammaInvert)
        (gatedApply (1 / 8) d.slrGate
          (SimulateLowResolution.apply d.slrDown d.slrUp d.slrSpacing)
          (gatedApply (3 / 20) d.contrastGate (Contrast.apply d.contrastDraw)
            (gatedApply (3 / 20) d.brightGate (Brightness.apply d.brightDraw)
              (gatedApply (1 / 10) d.blurGate (GaussianBlur.apply d.blurF)
                (gatedApply (3 / 20) d.noiseGate (GaussianNoise.apply d.noiseF)
                  (Mirroring.apply (1 / 2) d.mirrorGate d.mirrorAxes
                    (gatedApply (1 / 5) d.scaleGate
                      (Scaling.apply d.scaleDraw d.scaleAffine d.scaleCast)
                      (gatedApply (1 / 5) d.rotGate
                        (Rotation.apply d.rotAffine d.rotCast) s)))))))) := rfl

end NNUNet
